import Mathlib

/-!
Verification of the dispatch core of the aws-c-s3 client against its design
specification.  The repository sources contain only the private header
`src/include/aws/s3/private/s3_client_impl.h` (struct layouts and function
declarations); the implementation file `s3_client.c` is absent, so every
operation below is modelled from the specification's description of the
behaviour, over state types that mirror the header's structs.
-/

/-- Modelled from the spec: the lifecycle-relevant fields of
`struct aws_s3_client.synced_data` (`s3_client_impl.h`): the reference count,
the count of allocated VIPs (`allocated_vip_count`, zero meaning every VIP has
confirmed destroy and the VIP list is empty), the
`body_streaming_elg_allocated` and `host_listener_allocated` shutdown flags,
the one-shot `finish_destroy` guard flag, and whether the client's storage has
been freed.  The implementation file `s3_client.c` holding the shutdown logic
is not part of the sources. -/
structure ClientLifecycleState where
  refCount : Nat
  allocatedVipCount : Nat
  bodyStreamingElgAllocated : Bool
  hostListenerAllocated : Bool
  finishDestroyFlag : Bool
  freed : Bool
deriving DecidableEq, Repr

/-- Modelled from the spec: the externally driven lifecycle events of §4.1 —
`acquire`/`release` reference-count calls and the three independent shutdown
confirmations (a VIP confirming destroy, the body-streaming event-loop group
confirming shutdown, the host listener confirming removal). -/
inductive LifecycleEvent where
  | acquire
  | release
  | vipDestroyConfirmed
  | bodyStreamingShutdownConfirmed
  | listenerRemovalConfirmed
deriving DecidableEq, Repr

def LifecycleEvent.isConfirmation : LifecycleEvent → Bool
  | .vipDestroyConfirmed => true
  | .bodyStreamingShutdownConfirmed => true
  | .listenerRemovalConfirmed => true
  | _ => false

/-- Modelled from the spec: the fan-in condition of §4.1 — the net reference
count has reached zero, every VIP has confirmed destroy (the VIP list is
empty), the body-delivery execution context has confirmed shutdown, and the
address-resolution listener has confirmed removal. -/
def destroyReady (s : ClientLifecycleState) : Bool :=
  s.refCount == 0 && s.allocatedVipCount == 0 &&
    !s.bodyStreamingElgAllocated && !s.hostListenerAllocated

/-- Modelled from the spec: after any lifecycle transition the client checks
whether all shutdown confirmations have fanned in and, guarded by the one-shot
`finish_destroy` flag, runs `finish_destroy` and frees its storage. -/
def checkFinishDestroy (s : ClientLifecycleState) : ClientLifecycleState :=
  if destroyReady s && !s.finishDestroyFlag then
    { s with finishDestroyFlag := true, freed := true }
  else s

/-- Modelled from the spec: the direct field mutation each lifecycle event
performs, before the finish-destroy check runs. -/
def rawUpdate (s : ClientLifecycleState) : LifecycleEvent → ClientLifecycleState
  | .acquire => { s with refCount := s.refCount + 1 }
  | .release => { s with refCount := s.refCount - 1 }
  | .vipDestroyConfirmed => { s with allocatedVipCount := s.allocatedVipCount - 1 }
  | .bodyStreamingShutdownConfirmed => { s with bodyStreamingElgAllocated := false }
  | .listenerRemovalConfirmed => { s with hostListenerAllocated := false }

/-- Modelled from the spec: one lifecycle event is the field mutation followed
by the guarded finish-destroy check. -/
def applyEvent (s : ClientLifecycleState) (e : LifecycleEvent) : ClientLifecycleState :=
  checkFinishDestroy (rawUpdate s e)

/-- Modelled from the spec: a whole sequence of lifecycle events applied to a
client state. -/
def runEvents (s : ClientLifecycleState) (es : List LifecycleEvent) : ClientLifecycleState :=
  es.foldl applyEvent s

/-- Modelled from the spec: how many times the guarded finish-destroy check
actually fires (i.e. how many times `finish_destroy` is invoked) along a run. -/
def fireCount (s : ClientLifecycleState) : List LifecycleEvent → Nat
  | [] => 0
  | e :: es =>
      (if destroyReady (rawUpdate s e) && !(rawUpdate s e).finishDestroyFlag then 1 else 0)
        + fireCount (applyEvent s e) es

/-- Outcome of an explicit `finish_destroy` invocation: either the client is
destroyed or the one-shot guard flag reports a double invocation. -/
inductive DestroyOutcome where
  | destroyed (s : ClientLifecycleState)
  | lifecycleError
deriving DecidableEq, Repr

/-- Modelled from the spec: `finish_destroy` is guarded by the one-shot
`synced_data.finish_destroy` flag (`s3_client_impl.h` line 195: "True if
client has been flagged to finish destroying itself. Used to catch
double-destroy bugs."); a second invocation is a detectable `LifecycleError`,
not a silent double free. -/
def finishDestroy (s : ClientLifecycleState) : DestroyOutcome :=
  if s.finishDestroyFlag then .lifecycleError
  else .destroyed { s with finishDestroyFlag := true, freed := true }

theorem rawUpdate_finishDestroyFlag (s : ClientLifecycleState) (e : LifecycleEvent) :
    (rawUpdate s e).finishDestroyFlag = s.finishDestroyFlag := by
  cases e <;> rfl

theorem rawUpdate_freed (s : ClientLifecycleState) (e : LifecycleEvent) :
    (rawUpdate s e).freed = s.freed := by
  cases e <;> rfl

theorem applyEvent_freed (s : ClientLifecycleState) (e : LifecycleEvent)
    (hfree : s.freed = s.finishDestroyFlag) :
    (applyEvent s e).freed = (s.freed || destroyReady (rawUpdate s e)) := by
  unfold applyEvent checkFinishDestroy
  by_cases h : (destroyReady (rawUpdate s e) && !(rawUpdate s e).finishDestroyFlag) = true
  · rw [if_pos h]
    rw [rawUpdate_finishDestroyFlag] at h
    simp only [Bool.and_eq_true, Bool.not_eq_eq_eq_not, Bool.not_true] at h
    simp [h.1]
  · rw [if_neg h]
    rw [rawUpdate_finishDestroyFlag] at h
    simp only [Bool.and_eq_true, Bool.not_eq_eq_eq_not, Bool.not_true, not_and] at h
    rw [rawUpdate_freed]
    by_cases hr : destroyReady (rawUpdate s e) = true
    · have hf : s.finishDestroyFlag = true := by
        simpa using h hr
      rw [hfree, hf]
      simp
    · simp only [Bool.not_eq_true] at hr
      simp [hr]

theorem applyEvent_freed_eq_flag (s : ClientLifecycleState) (e : LifecycleEvent)
    (hfree : s.freed = s.finishDestroyFlag) :
    (applyEvent s e).freed = (applyEvent s e).finishDestroyFlag := by
  unfold applyEvent checkFinishDestroy
  by_cases h : (destroyReady (rawUpdate s e) && !(rawUpdate s e).finishDestroyFlag) = true
  · rw [if_pos h]
  · rw [if_neg h]
    rw [rawUpdate_freed, rawUpdate_finishDestroyFlag, hfree]

theorem exists_split_cons {α : Type} (x : α) (xs : List α) (P : List α → α → Prop) :
    (∃ l₁ e l₂, x :: xs = l₁ ++ e :: l₂ ∧ P l₁ e) ↔
      (P [] x ∨ ∃ l₁ e l₂, xs = l₁ ++ e :: l₂ ∧ P (x :: l₁) e) := by
  constructor
  · rintro ⟨l₁, e, l₂, heq, hP⟩
    cases l₁ with
    | nil =>
      simp only [List.nil_append, List.cons.injEq] at heq
      exact Or.inl (by rw [heq.1]; exact hP)
    | cons a l₁ =>
      simp only [List.cons_append, List.cons.injEq] at heq
      exact Or.inr ⟨l₁, e, l₂, heq.2, by rw [heq.1]; exact hP⟩
  · rintro (h | ⟨l₁, e, l₂, heq, hP⟩)
    · exact ⟨[], x, xs, rfl, h⟩
    · exact ⟨x :: l₁, e, l₂, by rw [heq, List.cons_append], hP⟩

theorem runEvents_freed_iff (es : List LifecycleEvent) :
    ∀ s : ClientLifecycleState, s.freed = s.finishDestroyFlag →
    ((runEvents s es).freed = true ↔
      (s.freed = true ∨ ∃ l₁ e l₂, es = l₁ ++ e :: l₂ ∧
        destroyReady (rawUpdate (runEvents s l₁) e) = true)) := by
  induction es with
  | nil =>
    intro s hfree
    simp [runEvents]
  | cons e es ih =>
    intro s hfree
    have hstep : runEvents s (e :: es) = runEvents (applyEvent s e) es := rfl
    rw [hstep, ih (applyEvent s e) (applyEvent_freed_eq_flag s e hfree),
      applyEvent_freed s e hfree,
      exists_split_cons e es
        (fun l₁ e₁ => destroyReady (rawUpdate (runEvents s l₁) e₁) = true)]
    simp only [Bool.or_eq_true, runEvents, List.foldl_nil, List.foldl_cons]
    tauto

/-- State marked by a fired finish-destroy check: guard flag set, storage freed. -/
def markDestroyed (s : ClientLifecycleState) : ClientLifecycleState :=
  { s with finishDestroyFlag := true, freed := true }

theorem rawUpdate_confirmation_comm (s : ClientLifecycleState)
    (e₁ e₂ : LifecycleEvent) (h₁ : e₁.isConfirmation = true) (h₂ : e₂.isConfirmation = true) :
    rawUpdate (rawUpdate s e₁) e₂ = rawUpdate (rawUpdate s e₂) e₁ := by
  cases e₁ <;> cases e₂ <;> simp [LifecycleEvent.isConfirmation] at h₁ h₂ <;> rfl

theorem rawUpdate_markDestroyed (s : ClientLifecycleState) (e : LifecycleEvent) :
    rawUpdate (markDestroyed s) e = markDestroyed (rawUpdate s e) := by
  cases e <;> rfl

theorem destroyReady_confirmation_mono (s : ClientLifecycleState) (e : LifecycleEvent)
    (he : e.isConfirmation = true) (h : destroyReady s = true) :
    destroyReady (rawUpdate s e) = true := by
  cases e <;> simp_all [destroyReady, rawUpdate, LifecycleEvent.isConfirmation]

theorem applyEvent_eq_ite (s : ClientLifecycleState) (e : LifecycleEvent) :
    applyEvent s e =
      if destroyReady (rawUpdate s e) && !s.finishDestroyFlag then
        markDestroyed (rawUpdate s e)
      else rawUpdate s e := by
  unfold applyEvent checkFinishDestroy markDestroyed
  rw [rawUpdate_finishDestroyFlag]

theorem applyEvent_markDestroyed (s : ClientLifecycleState) (e : LifecycleEvent) :
    applyEvent (markDestroyed s) e = markDestroyed (rawUpdate s e) := by
  rw [applyEvent_eq_ite]
  have hflag : (markDestroyed s).finishDestroyFlag = true := rfl
  rw [hflag]
  simp [rawUpdate_markDestroyed]

theorem applyEvent_applyEvent_eq_ite (s : ClientLifecycleState) (e₁ e₂ : LifecycleEvent)
    (h₂ : e₂.isConfirmation = true) :
    applyEvent (applyEvent s e₁) e₂ =
      if destroyReady (rawUpdate (rawUpdate s e₁) e₂) && !s.finishDestroyFlag then
        markDestroyed (rawUpdate (rawUpdate s e₁) e₂)
      else rawUpdate (rawUpdate s e₁) e₂ := by
  rw [applyEvent_eq_ite s e₁]
  by_cases c₁ : (destroyReady (rawUpdate s e₁) && !s.finishDestroyFlag) = true
  · rw [if_pos c₁, applyEvent_markDestroyed]
    rcases Bool.and_eq_true_iff.mp c₁ with ⟨hr, hf⟩
    have hr₂ : destroyReady (rawUpdate (rawUpdate s e₁) e₂) = true :=
      destroyReady_confirmation_mono _ e₂ h₂ hr
    rw [hr₂, hf]
    simp
  · rw [if_neg c₁, applyEvent_eq_ite, rawUpdate_finishDestroyFlag]

theorem applyEvent_confirmation_comm (s : ClientLifecycleState)
    (e₁ e₂ : LifecycleEvent) (h₁ : e₁.isConfirmation = true) (h₂ : e₂.isConfirmation = true) :
    applyEvent (applyEvent s e₁) e₂ = applyEvent (applyEvent s e₂) e₁ := by
  rw [applyEvent_applyEvent_eq_ite s e₁ e₂ h₂, applyEvent_applyEvent_eq_ite s e₂ e₁ h₁,
    rawUpdate_confirmation_comm s e₁ e₂ h₁ h₂]

/-- C1: for every sequence of acquire/release calls and subsystem shutdown
confirmations, the client runs `finish_destroy` and frees its storage if and
only if at some step the net reference count has reached zero, every VIP has
confirmed destroy, the body-delivery execution context has confirmed shutdown
and the address-resolution listener has confirmed removal; and the order in
which the three confirmations arrive does not change the resulting state
(commutativity). -/
theorem client_destroyed_iff_fanin_and_confirmations_commute
    (s : ClientLifecycleState) (hfree : s.freed = s.finishDestroyFlag)
    (es : List LifecycleEvent) :
    ((runEvents s es).freed = true ↔
      (s.freed = true ∨ ∃ l₁ e l₂, es = l₁ ++ e :: l₂ ∧
        destroyReady (rawUpdate (runEvents s l₁) e) = true))
    ∧ (∀ e₁ e₂ : LifecycleEvent, e₁.isConfirmation = true → e₂.isConfirmation = true →
        applyEvent (applyEvent s e₁) e₂ = applyEvent (applyEvent s e₂) e₁) :=
  ⟨runEvents_freed_iff es s hfree,
   fun e₁ e₂ h₁ h₂ => applyEvent_confirmation_comm s e₁ e₂ h₁ h₂⟩

theorem client_destroyed_iff_fanin_witness :
    (runEvents ⟨1, 2, true, true, false, false⟩
        [.release, .vipDestroyConfirmed, .bodyStreamingShutdownConfirmed,
         .vipDestroyConfirmed, .listenerRemovalConfirmed]).freed = true :=
  (client_destroyed_iff_fanin_and_confirmations_commute
      ⟨1, 2, true, true, false, false⟩ rfl
      [.release, .vipDestroyConfirmed, .bodyStreamingShutdownConfirmed,
       .vipDestroyConfirmed, .listenerRemovalConfirmed]).1.mpr
    (Or.inr ⟨[.release, .vipDestroyConfirmed, .bodyStreamingShutdownConfirmed,
        .vipDestroyConfirmed], .listenerRemovalConfirmed, [], rfl, by decide⟩)

theorem applyEvent_of_flag (s : ClientLifecycleState) (e : LifecycleEvent)
    (h : s.finishDestroyFlag = true) : applyEvent s e = rawUpdate s e := by
  rw [applyEvent_eq_ite, h]
  simp

theorem fireCount_of_flag (es : List LifecycleEvent) :
    ∀ s : ClientLifecycleState, s.finishDestroyFlag = true → fireCount s es = 0 := by
  induction es with
  | nil => intro s h; rfl
  | cons e es ih =>
    intro s h
    show (if destroyReady (rawUpdate s e) && !(rawUpdate s e).finishDestroyFlag then 1 else 0)
        + fireCount (applyEvent s e) es = 0
    rw [rawUpdate_finishDestroyFlag, h, applyEvent_of_flag s e h,
      ih (rawUpdate s e) (by rw [rawUpdate_finishDestroyFlag, h])]
    simp

theorem fireCount_le_one (es : List LifecycleEvent) :
    ∀ s : ClientLifecycleState, s.finishDestroyFlag = false → fireCount s es ≤ 1 := by
  induction es with
  | nil => intro s h; simp [fireCount]
  | cons e es ih =>
    intro s h
    show (if destroyReady (rawUpdate s e) && !(rawUpdate s e).finishDestroyFlag then 1 else 0)
        + fireCount (applyEvent s e) es ≤ 1
    rw [rawUpdate_finishDestroyFlag]
    by_cases hc : (destroyReady (rawUpdate s e) && !s.finishDestroyFlag) = true
    · rw [if_pos hc]
      have hflag : (applyEvent s e).finishDestroyFlag = true := by
        rw [applyEvent_eq_ite, if_pos hc]
        rfl
      rw [fireCount_of_flag es (applyEvent s e) hflag]
    · rw [if_neg hc]
      have happ : applyEvent s e = rawUpdate s e := by
        rw [applyEvent_eq_ite, if_neg hc]
      rw [happ]
      have hflag : (rawUpdate s e).finishDestroyFlag = false := by
        rw [rawUpdate_finishDestroyFlag]; exact h
      simpa using ih (rawUpdate s e) hflag

/-- C2: along every reachable execution, `finish_destroy` fires at most once
(the one-shot guard flag makes a second invocation impossible), and an
explicit second invocation attempt on a client whose guard flag is already
set is detected as a `LifecycleError` rather than silently performed. -/
theorem finish_destroy_one_shot (s : ClientLifecycleState)
    (h : s.finishDestroyFlag = false) (es : List LifecycleEvent) :
    fireCount s es ≤ 1 ∧
      ∀ t : ClientLifecycleState, t.finishDestroyFlag = true →
        finishDestroy t = DestroyOutcome.lifecycleError :=
  ⟨fireCount_le_one es s h,
   fun t ht => by unfold finishDestroy; rw [ht]; rfl⟩

theorem finish_destroy_one_shot_witness :
    fireCount ⟨1, 1, true, true, false, false⟩
        [.release, .vipDestroyConfirmed, .bodyStreamingShutdownConfirmed,
         .listenerRemovalConfirmed, .listenerRemovalConfirmed, .vipDestroyConfirmed] ≤ 1 ∧
      ∀ t : ClientLifecycleState, t.finishDestroyFlag = true →
        finishDestroy t = DestroyOutcome.lifecycleError :=
  finish_destroy_one_shot ⟨1, 1, true, true, false, false⟩ rfl
    [.release, .vipDestroyConfirmed, .bodyStreamingShutdownConfirmed,
     .listenerRemovalConfirmed, .listenerRemovalConfirmed, .vipDestroyConfirmed]

/-- Mirrors `struct aws_s3_vip_connection` (`s3_client_impl.h` lines 66-81):
the owning VIP (back-reference, as an identifier), the currently in-use HTTP
connection (as an optional identifier), the number of requests made on that
connection, and the request currently being processed. -/
structure VipConnectionSlot where
  owningVip : Nat
  httpConnection : Option Nat
  requestCount : Nat
  request : Option Nat
deriving DecidableEq, Repr

/-- Result of one connection acquisition on a slot: the updated slot, whether
a fresh connection was requested from the owning VIP's connection manager,
and whether the acquisition succeeded. -/
structure AcquireOutcome where
  slot : VipConnectionSlot
  requestedFresh : Bool
  success : Bool
deriving DecidableEq, Repr

/-- Modelled from the spec: `acquire_connection` (§4.3) — if the slot holds a
live connection under the per-connection request ceiling, reuse it
synchronously; otherwise release any stale connection and request a new one
from the owning VIP's connection manager (`mgrResult` is the manager's answer:
a fresh connection or an acquisition failure), resetting the slot's request
counter on success.  The implementing `s3_client.c` is not in the sources. -/
def acquireConnection (limit : Nat) (slot : VipConnectionSlot)
    (mgrResult : Option Nat) : AcquireOutcome :=
  match slot.httpConnection with
  | some c =>
      if slot.requestCount < limit then
        ⟨{ slot with httpConnection := some c }, false, true⟩
      else
        match mgrResult with
        | some c₂ => ⟨{ slot with httpConnection := some c₂, requestCount := 0 }, true, true⟩
        | none => ⟨{ slot with httpConnection := none }, true, false⟩
  | none =>
      match mgrResult with
      | some c₂ => ⟨{ slot with httpConnection := some c₂, requestCount := 0 }, true, true⟩
      | none => ⟨{ slot with httpConnection := none }, true, false⟩

/-- Modelled from the spec: `release_connection` (§4.3) — increments
`request_count`; if the ceiling is reached, proactively drops the connection
so the next acquisition starts clean. -/
def releaseConnection (limit : Nat) (slot : VipConnectionSlot) : VipConnectionSlot :=
  if limit ≤ slot.requestCount + 1 then
    { slot with requestCount := slot.requestCount + 1, httpConnection := none }
  else
    { slot with requestCount := slot.requestCount + 1 }

/-- A connection slot together with a count of how many acquisitions the
owning VIP's connection manager has been asked for (the mock counter of the
spec's testable property). -/
structure SlotTraceState where
  slot : VipConnectionSlot
  managerAcquisitions : Nat
deriving DecidableEq, Repr

/-- Modelled from the spec: one request serviced on a slot — acquire a
connection (consulting the connection manager when the held connection is
stale or absent) and, if acquisition succeeded, release it after the request
completes. -/
def slotCycle (limit : Nat) (st : SlotTraceState) (mgrResult : Option Nat) : SlotTraceState :=
  let out := acquireConnection limit st.slot mgrResult
  let acq := st.managerAcquisitions + (if out.requestedFresh then 1 else 0)
  if out.success then ⟨releaseConnection limit out.slot, acq⟩
  else ⟨out.slot, acq⟩

/-- Modelled from the spec: a slot servicing a whole sequence of requests,
with the connection manager's successive answers given as a list. -/
def slotRun (limit : Nat) (st : SlotTraceState) (results : List (Option Nat)) : SlotTraceState :=
  results.foldl (slotCycle limit) st

/-- Invariant of a connection slot: the request count never exceeds the
per-connection ceiling, and a slot holding a live connection is strictly
under the ceiling. -/
def SlotInv (limit : Nat) (slot : VipConnectionSlot) : Prop :=
  slot.requestCount ≤ limit ∧
    (slot.httpConnection.isSome = true → slot.requestCount < limit)

theorem acquireConnection_inv (limit : Nat) (hl : 0 < limit) (slot : VipConnectionSlot)
    (mgrResult : Option Nat) (h : SlotInv limit slot) :
    SlotInv limit (acquireConnection limit slot mgrResult).slot ∧
      ((acquireConnection limit slot mgrResult).success = true →
        (acquireConnection limit slot mgrResult).slot.httpConnection.isSome = true) := by
  obtain ⟨ov, conn, rc, req⟩ := slot
  obtain ⟨h₁, h₂⟩ := h
  simp only [SlotInv] at h₂ ⊢
  cases conn <;> cases mgrResult <;>
    by_cases hlt : rc < limit <;>
      simp_all [acquireConnection]

theorem releaseConnection_inv (limit : Nat) (slot : VipConnectionSlot)
    (h : slot.requestCount < limit) :
    SlotInv limit (releaseConnection limit slot) := by
  unfold releaseConnection SlotInv
  by_cases hc : limit ≤ slot.requestCount + 1
  · rw [if_pos hc]
    exact ⟨h, by simp⟩
  · rw [if_neg hc]
    exact ⟨h, fun _ => Nat.lt_of_not_le hc⟩

theorem slotCycle_slot_eq (limit : Nat) (st : SlotTraceState) (mgrResult : Option Nat) :
    (slotCycle limit st mgrResult).slot =
      if (acquireConnection limit st.slot mgrResult).success then
        releaseConnection limit (acquireConnection limit st.slot mgrResult).slot
      else (acquireConnection limit st.slot mgrResult).slot := by
  unfold slotCycle
  by_cases hs : (acquireConnection limit st.slot mgrResult).success = true <;> simp [hs]

theorem slotCycle_inv (limit : Nat) (hl : 0 < limit) (st : SlotTraceState)
    (mgrResult : Option Nat) (h : SlotInv limit st.slot) :
    SlotInv limit (slotCycle limit st mgrResult).slot := by
  rw [slotCycle_slot_eq]
  rcases acquireConnection_inv limit hl st.slot mgrResult h with ⟨hinv, hsucc⟩
  by_cases hs : (acquireConnection limit st.slot mgrResult).success = true
  · rw [if_pos hs]
    exact releaseConnection_inv limit _ (hinv.2 (hsucc hs))
  · rw [if_neg hs]
    exact hinv

theorem slotRun_inv (limit : Nat) (hl : 0 < limit) (results : List (Option Nat)) :
    ∀ st : SlotTraceState, SlotInv limit st.slot → SlotInv limit (slotRun limit st results).slot := by
  induction results with
  | nil => intro st h; exact h
  | cons r rs ih =>
    intro st h
    exact ih (slotCycle limit st r) (slotCycle_inv limit hl st r h)

theorem acquireConnection_at_ceiling (limit : Nat) (slot : VipConnectionSlot)
    (mgrResult : Option Nat) (hc : limit ≤ slot.requestCount) :
    (acquireConnection limit slot mgrResult).requestedFresh = true ∧
      (∀ c, mgrResult = some c →
        (acquireConnection limit slot mgrResult).slot.requestCount = 0) := by
  obtain ⟨ov, conn, rc, req⟩ := slot
  simp only at hc
  have hlt : ¬rc < limit := Nat.not_lt.mpr hc
  cases conn <;> cases mgrResult <;>
    simp [acquireConnection, if_neg hlt]

theorem slotCycle_at_ceiling (limit : Nat) (st : SlotTraceState)
    (mgrResult : Option Nat) (hc : limit ≤ st.slot.requestCount) :
    (slotCycle limit st mgrResult).managerAcquisitions = st.managerAcquisitions + 1 := by
  unfold slotCycle
  rcases acquireConnection_at_ceiling limit st.slot mgrResult hc with ⟨hfresh, _⟩
  by_cases hs : (acquireConnection limit st.slot mgrResult).success = true <;>
    simp [hs, hfresh]

/-- C3: with a positive per-connection request ceiling, `request_count` never
exceeds the ceiling along any sequence of serviced requests (and a slot
holding a live connection is strictly under it); and a slot whose
`request_count` has reached the ceiling requests a fresh connection from the
owning VIP's connection manager on its next acquisition (the manager's
acquisition counter increments), resetting `request_count` to zero when the
manager delivers a connection. -/
theorem request_count_ceiling (limit : Nat) (hl : 0 < limit) :
    (∀ (st : SlotTraceState) (results : List (Option Nat)),
      SlotInv limit st.slot → SlotInv limit (slotRun limit st results).slot)
    ∧ (∀ (st : SlotTraceState) (mgrResult : Option Nat),
        st.slot.requestCount = limit →
          (acquireConnection limit st.slot mgrResult).requestedFresh = true
          ∧ (slotCycle limit st mgrResult).managerAcquisitions = st.managerAcquisitions + 1
          ∧ ∀ c, mgrResult = some c →
              (acquireConnection limit st.slot mgrResult).slot.requestCount = 0) :=
  ⟨fun st results h => slotRun_inv limit hl results st h,
   fun st mgrResult hceil =>
    ⟨(acquireConnection_at_ceiling limit st.slot mgrResult (Nat.le_of_eq hceil.symm)).1,
     slotCycle_at_ceiling limit st mgrResult (Nat.le_of_eq hceil.symm),
     (acquireConnection_at_ceiling limit st.slot mgrResult (Nat.le_of_eq hceil.symm)).2⟩⟩

theorem request_count_ceiling_witness :
    SlotInv 2 (slotRun 2 ⟨⟨0, none, 0, none⟩, 0⟩ [some 7, none, some 8, some 9]).slot ∧
      (acquireConnection 2 ⟨0, some 5, 2, none⟩ (some 9)).requestedFresh = true ∧
      (slotCycle 2 ⟨⟨0, some 5, 2, none⟩, 3⟩ (some 9)).managerAcquisitions = 3 + 1 :=
  ⟨(request_count_ceiling 2 (by decide)).1 ⟨⟨0, none, 0, none⟩, 0⟩
      [some 7, none, some 8, some 9] (by constructor <;> decide),
   ((request_count_ceiling 2 (by decide)).2 ⟨⟨0, some 5, 2, none⟩, 0⟩ (some 9) rfl).1,
   ((request_count_ceiling 2 (by decide)).2 ⟨⟨0, some 5, 2, none⟩, 3⟩ (some 9) rfl).2.1⟩

/-- Modelled from the spec: the work-processing scheduler state — the
`process_work_task_scheduled` and `process_work_task_in_progress` flags of
`aws_s3_client.synced_data` (`s3_client_impl.h` lines 181-185), the queue of
staged pending work, and the work already processed.  The implementing
`s3_client.c` is not in the sources. -/
structure SchedulerState where
  scheduled : Bool
  inProgress : Bool
  pending : List Nat
  processed : List Nat
deriving DecidableEq, Repr

/-- Modelled from the spec: `request_run` from an arbitrary thread stages a
work item and sets the `scheduled` flag. -/
def enqueueWork (s : SchedulerState) (w : Nat) : SchedulerState :=
  { s with pending := s.pending ++ [w], scheduled := true }

/-- Modelled from the spec: one pass of the scheduler — on entry it sets
`in_progress`, clears `scheduled`, and drains the whole staged queue. -/
def runPass (s : SchedulerState) : SchedulerState :=
  { scheduled := false, inProgress := true,
    pending := [], processed := s.processed ++ s.pending }

/-- Modelled from the spec: the scheduler loop of §4.4.  Each entry of
`injections` is the batch of work items enqueued concurrently while the
corresponding pass was running (each such enqueue sets `scheduled` again).
At the end of a pass the scheduler clears `in_progress` and, if `scheduled`
was set again mid-run, re-enters at step 1 instead of going idle. -/
def processWorkLoop (s : SchedulerState) : List (List Nat) → SchedulerState
  | [] => { runPass s with inProgress := false }
  | batch :: rest =>
      let s₁ := batch.foldl enqueueWork (runPass s)
      if s₁.scheduled then processWorkLoop { s₁ with inProgress := false } rest
      else { s₁ with inProgress := false }

theorem foldl_enqueueWork (l : List Nat) :
    ∀ s : SchedulerState, l.foldl enqueueWork s =
      { s with pending := s.pending ++ l, scheduled := (s.scheduled || !l.isEmpty) } := by
  induction l with
  | nil => intro s; simp
  | cons w l ih =>
    intro s
    show l.foldl enqueueWork (enqueueWork s w) = _
    rw [ih (enqueueWork s w)]
    simp [enqueueWork]

theorem processWorkLoop_cons (s : SchedulerState) (batch : List Nat) (rest : List (List Nat)) :
    processWorkLoop s (batch :: rest) =
      if (batch.foldl enqueueWork (runPass s)).scheduled then
        processWorkLoop { batch.foldl enqueueWork (runPass s) with inProgress := false } rest
      else { batch.foldl enqueueWork (runPass s) with inProgress := false } := rfl

/-- C4: for every interleaving of mid-run enqueues with scheduler passes
(every batch nonempty, i.e. each modelled run really saw new work arrive
while `in_progress` was set), the scheduler loop re-enters rather than going
idle, so on exit no work item is stranded: the staged queue is empty, the
flags are clear, and everything enqueued — before the run or mid-run — has
been processed, with no external trigger. -/
theorem scheduler_no_dropped_wakeup (s : SchedulerState) (batches : List (List Nat))
    (hne : ∀ b ∈ batches, b ≠ []) :
    (processWorkLoop s batches).pending = []
    ∧ (processWorkLoop s batches).inProgress = false
    ∧ (processWorkLoop s batches).scheduled = false
    ∧ (processWorkLoop s batches).processed = s.processed ++ s.pending ++ batches.flatten := by
  induction batches generalizing s with
  | nil =>
    refine ⟨rfl, rfl, rfl, ?_⟩
    simp [processWorkLoop, runPass]
  | cons batch rest ih =>
    have hb : batch ≠ [] := hne batch (List.mem_cons_self batch rest)
    have hbe : batch.isEmpty = false := by
      cases batch with
      | nil => exact absurd rfl hb
      | cons a l => rfl
    have hrest : ∀ b ∈ rest, b ≠ [] := fun b hmem => hne b (List.mem_cons_of_mem batch hmem)
    rw [processWorkLoop_cons, foldl_enqueueWork batch (runPass s)]
    simp only [runPass, hbe, Bool.false_or, Bool.not_false, if_true, List.nil_append]
    have hmid := ih ⟨true, false, batch, s.processed ++ s.pending⟩ hrest
    rcases hmid with ⟨ih₁, ih₂, ih₃, ih₄⟩
    refine ⟨ih₁, ih₂, ih₃, ?_⟩
    rw [ih₄]
    simp [List.append_assoc]

theorem scheduler_no_dropped_wakeup_witness :
    (processWorkLoop ⟨false, false, [1], []⟩ [[2], [3, 4]]).pending = []
    ∧ (processWorkLoop ⟨false, false, [1], []⟩ [[2], [3, 4]]).inProgress = false
    ∧ (processWorkLoop ⟨false, false, [1], []⟩ [[2], [3, 4]]).scheduled = false
    ∧ (processWorkLoop ⟨false, false, [1], []⟩ [[2], [3, 4]]).processed =
        [] ++ [1] ++ ([[2], [3, 4]] : List (List Nat)).flatten :=
  scheduler_no_dropped_wakeup ⟨false, false, [1], []⟩ [[2], [3, 4]] (by decide)

/-- Modelled from the spec: `aws_s3_find_vip` (`s3_client_impl.h` line 252) —
linear scan of the VIP list by host-address equality; VIPs are represented by
their host addresses.  The implementing `s3_client.c` is not in the sources. -/
def aws_s3_find_vip (vipList : List Nat) (hostAddress : Nat) : Option Nat :=
  vipList.find? (fun a => a == hostAddress)

/-- Modelled from the spec: the VIP-pool fields of the client — the list of
active VIPs (by host address) and the configured `ideal_vip_count`
(`s3_client_impl.h` lines 138-139). -/
structure VipPoolState where
  vips : List Nat
  idealVipCount : Nat
deriving DecidableEq, Repr

/-- Modelled from the spec: host-resolution events delivered to the client's
host listener — an address added or an address removed. -/
inductive ResolutionEvent where
  | addressAdded (addr : Nat)
  | addressRemoved (addr : Nat)
deriving DecidableEq, Repr

/-- Modelled from the spec: §4.2 — on an address-added event a VIP is created
only if the pool size is below the ideal VIP count and `find_vip` reports the
address absent; on an address-removed event the VIP for that address leaves
the active pool.  The implementing `s3_client.c` is not in the sources. -/
def applyResolutionEvent (s : VipPoolState) (e : ResolutionEvent) : VipPoolState :=
  match e with
  | .addressAdded addr =>
      if s.vips.length < s.idealVipCount ∧ aws_s3_find_vip s.vips addr = none then
        { s with vips := addr :: s.vips }
      else s
  | .addressRemoved addr =>
      { s with vips := s.vips.filter (fun a => !(a == addr)) }

/-- Modelled from the spec: a whole sequence of resolution events applied to
the VIP pool. -/
def runResolutionEvents (s : VipPoolState) (es : List ResolutionEvent) : VipPoolState :=
  es.foldl applyResolutionEvent s

theorem applyResolutionEvent_idealVipCount (s : VipPoolState) (e : ResolutionEvent) :
    (applyResolutionEvent s e).idealVipCount = s.idealVipCount := by
  cases e with
  | addressAdded addr =>
    simp only [applyResolutionEvent]
    split <;> rfl
  | addressRemoved addr => rfl

theorem applyResolutionEvent_bound (s : VipPoolState) (e : ResolutionEvent)
    (h : s.vips.length ≤ s.idealVipCount) :
    (applyResolutionEvent s e).vips.length ≤ (applyResolutionEvent s e).idealVipCount := by
  rw [applyResolutionEvent_idealVipCount]
  cases e with
  | addressAdded addr =>
    simp only [applyResolutionEvent]
    split
    · next hc => simpa using hc.1
    · exact h
  | addressRemoved addr =>
    exact le_trans (List.length_filter_le _ _) h

theorem runResolutionEvents_bound (es : List ResolutionEvent) :
    ∀ s : VipPoolState, s.vips.length ≤ s.idealVipCount →
      (runResolutionEvents s es).vips.length ≤ (runResolutionEvents s es).idealVipCount := by
  induction es with
  | nil => intro s h; exact h
  | cons e es ih =>
    intro s h
    exact ih (applyResolutionEvent s e) (applyResolutionEvent_bound s e h)

/-- C6: starting from any client state whose VIP pool is within the ideal VIP
count, the pool size never exceeds the ideal VIP count under any sequence of
address-added/address-removed resolution events; and an address-added event
creates a new VIP exactly when the pool size is below the ideal count and
`aws_s3_find_vip` reports the address not already present. -/
theorem vip_pool_bounded_and_creation_guarded (s : VipPoolState)
    (h : s.vips.length ≤ s.idealVipCount) :
    (∀ es : List ResolutionEvent,
      (runResolutionEvents s es).vips.length ≤ (runResolutionEvents s es).idealVipCount)
    ∧ (∀ addr : Nat,
        (applyResolutionEvent s (.addressAdded addr)).vips ≠ s.vips ↔
          (s.vips.length < s.idealVipCount ∧ aws_s3_find_vip s.vips addr = none)) := by
  constructor
  · intro es
    exact runResolutionEvents_bound es s h
  · intro addr
    constructor
    · intro hne
      by_contra hcond
      apply hne
      simp only [applyResolutionEvent]
      rw [if_neg hcond]
    · intro hcond
      simp only [applyResolutionEvent]
      rw [if_pos hcond]
      intro habs
      have hlen := congrArg List.length habs
      simp at hlen

theorem vip_pool_bounded_witness :
    ((runResolutionEvents ⟨[10], 2⟩
        [.addressAdded 11, .addressAdded 12, .addressRemoved 10,
         .addressAdded 12, .addressAdded 13]).vips.length ≤
      (runResolutionEvents ⟨[10], 2⟩
        [.addressAdded 11, .addressAdded 12, .addressRemoved 10,
         .addressAdded 12, .addressAdded 13]).idealVipCount)
    ∧ ((applyResolutionEvent ⟨[10], 2⟩ (.addressAdded 11)).vips ≠ [10] ↔
        (([10] : List Nat).length < 2 ∧ aws_s3_find_vip [10] 11 = none)) :=
  ⟨(vip_pool_bounded_and_creation_guarded ⟨[10], 2⟩ (by decide)).1
      [.addressAdded 11, .addressAdded 12, .addressRemoved 10,
       .addressAdded 12, .addressAdded 13],
   (vip_pool_bounded_and_creation_guarded ⟨[10], 2⟩ (by decide)).2 11⟩

/-- Modelled from the spec: the configuration passed to `create` — the part
size bounds (`part_size`, `max_part_size`) and the throughput target in Gbps
(`throughput_target_gbps`), the latter as an exact rational standing in for
the C `double`. -/
structure ClientConfig where
  partSize : Nat
  maxPartSize : Nat
  throughputTargetGbps : ℚ
deriving DecidableEq, Repr

/-- Modelled from the spec: the immutable configuration a created client
carries (`s3_client_impl.h` lines 121-139), including the computed
`ideal_vip_count`. -/
structure S3Client where
  partSize : Nat
  maxPartSize : Nat
  throughputTargetGbps : ℚ
  idealVipCount : Nat
deriving DecidableEq, Repr

/-- Result of `create(config)`: a client, or a `ConfigError` on invalid
bounds. -/
inductive CreateResult where
  | ok (client : S3Client)
  | configError
deriving DecidableEq, Repr

/-- Modelled from the spec: the configuration-bounds validation of §4.1 — the
part size bounds must be coherent (a positive part size no larger than the
maximum part size) and the throughput target must be strictly positive. -/
def validConfig (cfg : ClientConfig) : Prop :=
  0 < cfg.partSize ∧ cfg.partSize ≤ cfg.maxPartSize ∧ 0 < cfg.throughputTargetGbps

instance (cfg : ClientConfig) : Decidable (validConfig cfg) := by
  unfold validConfig
  infer_instance

/-- Modelled from the spec: `create(config)` (§4.1) — validates the
configuration bounds, failing with `ConfigError`, and otherwise computes
`ideal_vip_count = ceil(throughput_target / per-VIP throughput estimate)`;
the per-VIP throughput estimate is a policy parameter (§9 leaves the constant
unspecified).  The implementing `s3_client.c` is not in the sources. -/
def createClient (perVipThroughputGbps : ℚ) (cfg : ClientConfig) : CreateResult :=
  if validConfig cfg then
    .ok { partSize := cfg.partSize, maxPartSize := cfg.maxPartSize,
          throughputTargetGbps := cfg.throughputTargetGbps,
          idealVipCount := (⌈cfg.throughputTargetGbps / perVipThroughputGbps⌉).toNat }
  else .configError

/-- C7: `create(config)` fails with `ConfigError` exactly when the
configuration bounds are invalid (part size bounds or a throughput target
that is not strictly positive); and for every valid configuration the created
client's `ideal_vip_count` equals `ceil(throughput_target / per-VIP
throughput estimate)` — in particular it is positive. -/
theorem create_config_error_iff_and_ideal_vip_count (perVip : ℚ) (hp : 0 < perVip)
    (cfg : ClientConfig) :
    (createClient perVip cfg = CreateResult.configError ↔
      ¬(0 < cfg.partSize ∧ cfg.partSize ≤ cfg.maxPartSize ∧ 0 < cfg.throughputTargetGbps))
    ∧ (validConfig cfg →
        createClient perVip cfg =
          CreateResult.ok
            { partSize := cfg.partSize, maxPartSize := cfg.maxPartSize,
              throughputTargetGbps := cfg.throughputTargetGbps,
              idealVipCount := (⌈cfg.throughputTargetGbps / perVip⌉).toNat }
        ∧ 0 < (⌈cfg.throughputTargetGbps / perVip⌉).toNat) := by
  constructor
  · constructor
    · intro h
      intro hv
      have hv' : validConfig cfg := hv
      rw [show createClient perVip cfg = .ok _ from by
        unfold createClient; rw [if_pos hv']] at h
      exact CreateResult.noConfusion h
    · intro hv
      have hv' : ¬validConfig cfg := hv
      unfold createClient
      rw [if_neg hv']
  · intro hv
    refine ⟨by unfold createClient; rw [if_pos hv], ?_⟩
    have hq : 0 < cfg.throughputTargetGbps / perVip := div_pos hv.2.2 hp
    have hceil : 0 < ⌈cfg.throughputTargetGbps / perVip⌉ := Int.ceil_pos.mpr hq
    omega

theorem create_config_error_iff_witness :
    ((createClient 1 ⟨8, 32, 10⟩ = CreateResult.configError ↔
        ¬(0 < 8 ∧ 8 ≤ 32 ∧ (0 : ℚ) < 10))
      ∧ (validConfig ⟨8, 32, 10⟩ →
          createClient 1 ⟨8, 32, 10⟩ =
            CreateResult.ok ⟨8, 32, 10, (⌈(10 : ℚ) / 1⌉).toNat⟩
          ∧ 0 < (⌈(10 : ℚ) / 1⌉).toNat)) :=
  create_config_error_iff_and_ideal_vip_count 1 (by norm_num) ⟨8, 32, 10⟩

/-- Request-accounting state of the client: `synced_data.pending_request_count`
("Counter for number of requests that have been finished/released, allowing us
to create new requests", `s3_client_impl.h` lines 172-173) and
`threaded_data.num_requests_in_flight` (line 214). -/
structure RequestAccounting where
  pendingRequestCount : Nat
  numRequestsInFlight : Nat
deriving DecidableEq, Repr

/-- Modelled from the spec and the header's field documentation:
`aws_s3_client_notify_request_destroyed` records one more finished/released
request in `synced_data.pending_request_count` (the header documents that
field as counting requests that have been finished/released); the
implementing `s3_client.c` is not in the sources. -/
def aws_s3_client_notify_request_destroyed (s : RequestAccounting) : RequestAccounting :=
  { s with pendingRequestCount := s.pendingRequestCount + 1 }

/-- Modelled from the spec: during its next run the work-processing task
drains the accumulated finished-request counter, reducing the number of
requests in flight accordingly; it is this reduction that lets new requests
be admitted under the concurrency cap. -/
def drainFinishedRequests (s : RequestAccounting) : RequestAccounting :=
  { pendingRequestCount := 0,
    numRequestsInFlight := s.numRequestsInFlight - s.pendingRequestCount }

/-- C8 counterexample: `aws_s3_client_notify_request_destroyed` does not
decrement `synced_data.pending_request_count`; at a state with counter 5 the
call yields 6, not 4. -/
theorem notify_request_destroyed_not_decrement :
    ¬((aws_s3_client_notify_request_destroyed ⟨5, 9⟩).pendingRequestCount = 5 - 1) := by
  decide

/-- C8 (amended): every call to `aws_s3_client_notify_request_destroyed`
increments the finished/released-request counter
`synced_data.pending_request_count` by exactly one, and the scheduler's drain
of that counter is what reduces `num_requests_in_flight`, admitting new
requests under the concurrency cap. -/
theorem notify_request_destroyed_increments (s : RequestAccounting) :
    (aws_s3_client_notify_request_destroyed s).pendingRequestCount =
        s.pendingRequestCount + 1
    ∧ (drainFinishedRequests s).numRequestsInFlight =
        s.numRequestsInFlight - s.pendingRequestCount
    ∧ (drainFinishedRequests s).pendingRequestCount = 0 :=
  ⟨rfl, rfl, rfl⟩

/-- Mirrors `struct aws_s3_vip` (`s3_client_impl.h` lines 32-63): identity,
host address, activity flag, the count of connection slots allocated against
it, and whether its connection manager is still allocated. -/
structure S3Vip where
  vipId : Nat
  hostAddress : Nat
  active : Bool
  numVipConnections : Nat
  httpConnectionManagerActive : Bool
deriving DecidableEq, Repr

/-- Modelled from the spec: the slot-allocation loop of `aws_s3_vip_new` —
builds the requested number of `aws_s3_vip_connection` structures, each bound
to the owning VIP with no live connection, no request assigned, and a zero
request count. -/
def allocVipConnections (vipId : Nat) : Nat → List VipConnectionSlot
  | 0 => []
  | n + 1 =>
      { owningVip := vipId, httpConnection := none, requestCount := 0, request := none }
        :: allocVipConnections vipId n

/-- Modelled from the spec: `aws_s3_vip_new` (`s3_client_impl.h` lines
239-246) — creates a VIP for the address and pre-allocates
`num_vip_connections` connection slots, appending them to
`out_vip_connections_list`.  The implementing `s3_client.c` is not in the
sources. -/
def aws_s3_vip_new (vipId hostAddress numVipConnections : Nat)
    (outVipConnectionsList : List VipConnectionSlot) : S3Vip × List VipConnectionSlot :=
  ({ vipId := vipId, hostAddress := hostAddress, active := true,
     numVipConnections := numVipConnections, httpConnectionManagerActive := true },
   outVipConnectionsList ++ allocVipConnections vipId numVipConnections)

theorem allocVipConnections_length (vipId : Nat) :
    ∀ n : Nat, (allocVipConnections vipId n).length = n := by
  intro n
  induction n with
  | zero => rfl
  | succ n ih =>
    show (allocVipConnections vipId (n + 1)).length = n + 1
    unfold allocVipConnections
    rw [List.length_cons, ih]

theorem allocVipConnections_mem (vipId : Nat) :
    ∀ n : Nat, ∀ slot ∈ allocVipConnections vipId n,
      slot.owningVip = vipId ∧ slot.httpConnection = none ∧
        slot.requestCount = 0 ∧ slot.request = none := by
  intro n
  induction n with
  | zero => intro slot h; exact absurd h (List.not_mem_nil slot)
  | succ n ih =>
    intro slot h
    unfold allocVipConnections at h
    rcases List.mem_cons.mp h with heq | hmem
    · rw [heq]
      exact ⟨rfl, rfl, rfl, rfl⟩
    · exact ih slot hmem

/-- C9: `aws_s3_vip_new` with `num_vip_connections = n` appends exactly `n`
connection slots to `out_vip_connections_list` (the existing entries are kept
in place), and every appended slot is initialized with `owning_vip` pointing
at the newly created VIP, a null `http_connection`, a null `request`, and a
zero `request_count`. -/
theorem vip_new_allocates_connections (vipId hostAddress n : Nat)
    (outList : List VipConnectionSlot) :
    ((aws_s3_vip_new vipId hostAddress n outList).2.length = outList.length + n)
    ∧ ((aws_s3_vip_new vipId hostAddress n outList).2.take outList.length = outList)
    ∧ (∀ slot ∈ (aws_s3_vip_new vipId hostAddress n outList).2.drop outList.length,
        slot.owningVip = (aws_s3_vip_new vipId hostAddress n outList).1.vipId ∧
          slot.httpConnection = none ∧ slot.requestCount = 0 ∧ slot.request = none) := by
  refine ⟨?_, ?_, ?_⟩
  · show (outList ++ allocVipConnections vipId n).length = outList.length + n
    rw [List.length_append, allocVipConnections_length]
  · show (outList ++ allocVipConnections vipId n).take outList.length = outList
    rw [List.take_left]
  · intro slot hmem
    have hdrop : (outList ++ allocVipConnections vipId n).drop outList.length =
        allocVipConnections vipId n := List.drop_left outList _
    rw [show (aws_s3_vip_new vipId hostAddress n outList).2 =
        outList ++ allocVipConnections vipId n from rfl, hdrop] at hmem
    exact allocVipConnections_mem vipId n slot hmem

/-- Modelled from the spec: the scheduler's thread-confined slot lists —
`threaded_data.idle_vip_connections` (`s3_client_impl.h` lines 204-205) and
the slots currently in use (off the idle list, assigned to a request). -/
structure SchedulerSlotPools where
  idleVipConnections : List VipConnectionSlot
  inUseVipConnections : List VipConnectionSlot
deriving DecidableEq, Repr

/-- Modelled from the spec: the two slot movements of §4.3/§4.4 — the
scheduler takes an idle slot and dispatches a request onto it, and
`aws_s3_client_notify_connection_finished` returns an in-use slot to the idle
list once its request is done, clearing the assignment.  The implementing
`s3_client.c` is not in the sources. -/
def applySlotPoolOp (s : SchedulerSlotPools) (op : Sum Nat Nat) : SchedulerSlotPools :=
  match op with
  | .inl req =>
      match s.idleVipConnections with
      | [] => s
      | slot :: rest =>
          { idleVipConnections := rest,
            inUseVipConnections :=
              { slot with request := some req } :: s.inUseVipConnections }
  | .inr i =>
      match s.inUseVipConnections[i]? with
      | none => s
      | some slot =>
          { idleVipConnections :=
              { slot with request := none } :: s.idleVipConnections,
            inUseVipConnections := s.inUseVipConnections.eraseIdx i }

/-- Modelled from the spec: a whole sequence of dispatch (`inl request`) and
finish (`inr index`) operations applied to the scheduler's slot pools. -/
def runSlotPoolOps (s : SchedulerSlotPools) (ops : List (Sum Nat Nat)) : SchedulerSlotPools :=
  ops.foldl applySlotPoolOp s

/-- Invariant of the idle list: no idle slot has a request assigned. -/
def IdleInv (s : SchedulerSlotPools) : Prop :=
  ∀ slot ∈ s.idleVipConnections, slot.request = none

theorem applySlotPoolOp_idleInv (s : SchedulerSlotPools) (op : Sum Nat Nat)
    (h : IdleInv s) : IdleInv (applySlotPoolOp s op) := by
  cases op with
  | inl req =>
    cases hc : s.idleVipConnections with
    | nil =>
      intro slot hmem
      simp only [applySlotPoolOp, hc] at hmem
      exact absurd hmem (List.not_mem_nil slot)
    | cons slot₀ rest =>
      intro slot hmem
      simp only [applySlotPoolOp, hc] at hmem
      exact h slot (by rw [hc]; exact List.mem_cons_of_mem slot₀ hmem)
  | inr i =>
    cases hc : s.inUseVipConnections[i]? with
    | none =>
      intro slot hmem
      simp only [applySlotPoolOp, hc] at hmem
      exact h slot hmem
    | some slot₀ =>
      intro slot hmem
      simp only [applySlotPoolOp, hc] at hmem
      rcases List.mem_cons.mp hmem with heq | hmem₂
      · rw [heq]
      · exact h slot hmem₂

/-- C10: starting from any state whose idle list satisfies the invariant (in
particular the initial empty lists), every reachable state under dispatch and
finish operations keeps every slot on the thread-confined
`idle_vip_connections` list with no request assigned; a slot carries a
request only while it is off the idle list in use. -/
theorem idle_slots_have_no_request (s : SchedulerSlotPools) (h : IdleInv s)
    (ops : List (Sum Nat Nat)) : IdleInv (runSlotPoolOps s ops) := by
  induction ops generalizing s with
  | nil => exact h
  | cons op ops ih => exact ih (applySlotPoolOp s op) (applySlotPoolOp_idleInv s op h)

theorem idle_slots_have_no_request_witness :
    IdleInv (runSlotPoolOps
      ⟨[⟨1, none, 0, none⟩, ⟨1, some 4, 1, none⟩], []⟩
      [.inl 21, .inl 22, .inr 0, .inl 23, .inr 5]) :=
  idle_slots_have_no_request ⟨[⟨1, none, 0, none⟩, ⟨1, some 4, 1, none⟩], []⟩
    (by unfold IdleInv; decide)
    [.inl 21, .inl 22, .inr 0, .inl 23, .inr 5]

/-- Modelled from the spec: a meta-request as the scheduler's round-robin
sees it — its identity, how many individual requests it still has pending,
and how many times it has been serviced. -/
structure MetaRequest where
  mrId : Nat
  pending : Nat
  served : Nat
deriving DecidableEq, Repr

/-- Modelled from the spec: steps 2-3 of a scheduler run (§4.4) — visit the
active meta-requests in rotation order starting at the cursor
(`threaded_data.next_meta_request`, here the list head), pulling one pending
request from each visited meta-request while connection slots remain; returns
the visited prefix (with pulls applied) and the unvisited rest. -/
def visitMetaRequests : Nat → List MetaRequest → List MetaRequest × List MetaRequest
  | 0, ms => ([], ms)
  | _ + 1, [] => ([], [])
  | slots + 1, m :: ms =>
      if 0 < m.pending then
        ({ m with pending := m.pending - 1, served := m.served + 1 }
            :: (visitMetaRequests slots ms).1,
         (visitMetaRequests slots ms).2)
      else
        (m :: (visitMetaRequests (slots + 1) ms).1, (visitMetaRequests (slots + 1) ms).2)

/-- Modelled from the spec: one scheduler run — visit in rotation with the
available slots, then advance the cursor past the last meta-request visited
(step 4): the unvisited rest comes first on the next run. -/
def rrRun (slots : Nat) (metas : List MetaRequest) : List MetaRequest :=
  (visitMetaRequests slots metas).2 ++ (visitMetaRequests slots metas).1

/-- Modelled from the spec: a number of consecutive scheduler runs. -/
def rrRuns (slots : Nat) : Nat → List MetaRequest → List MetaRequest
  | 0, metas => metas
  | n + 1, metas => rrRuns slots n (rrRun slots metas)

/-- A meta-request that has never been serviced and still has pending work. -/
def unservedReady (m : MetaRequest) : Prop := 0 < m.pending ∧ m.served = 0

/-- A meta-request that has received service at least once. -/
def wasServed (m : MetaRequest) : Prop := 0 < m.served

theorem visitMetaRequests_cons_pos (k : Nat) (m : MetaRequest) (ms : List MetaRequest)
    (hp : 0 < m.pending) :
    visitMetaRequests (k + 1) (m :: ms) =
      ({ m with pending := m.pending - 1, served := m.served + 1 }
          :: (visitMetaRequests k ms).1,
       (visitMetaRequests k ms).2) := by
  simp only [visitMetaRequests]
  rw [if_pos hp]

theorem visitMetaRequests_cons_neg (k : Nat) (m : MetaRequest) (ms : List MetaRequest)
    (hp : ¬0 < m.pending) :
    visitMetaRequests (k + 1) (m :: ms) =
      (m :: (visitMetaRequests (k + 1) ms).1, (visitMetaRequests (k + 1) ms).2) := by
  simp only [visitMetaRequests]
  rw [if_neg hp]

theorem visitMetaRequests_served (sl : List MetaRequest) :
    ∀ k : Nat, (∀ m ∈ sl, wasServed m) →
      (∀ m ∈ (visitMetaRequests k sl).1, wasServed m) ∧
      (∀ m ∈ (visitMetaRequests k sl).2, wasServed m) := by
  induction sl with
  | nil =>
    intro k h
    cases k with
    | zero =>
      exact ⟨fun m hm => absurd hm (List.not_mem_nil m),
             fun m hm => absurd hm (List.not_mem_nil m)⟩
    | succ k =>
      exact ⟨fun m hm => absurd hm (List.not_mem_nil m),
             fun m hm => absurd hm (List.not_mem_nil m)⟩
  | cons a ms ih =>
    intro k h
    have ha : wasServed a := h a (List.mem_cons_self a ms)
    have hms : ∀ x ∈ ms, wasServed x := fun x hx => h x (List.mem_cons_of_mem a hx)
    cases k with
    | zero => exact ⟨fun m hm => absurd hm (List.not_mem_nil m), h⟩
    | succ k =>
      by_cases hp : 0 < a.pending
      · rw [visitMetaRequests_cons_pos k a ms hp]
        rcases ih k hms with ⟨ih1, ih2⟩
        refine ⟨?_, ih2⟩
        intro m hm
        rcases List.mem_cons.mp hm with heq | hmem
        · rw [heq]
          exact Nat.succ_pos a.served
        · exact ih1 m hmem
      · rw [visitMetaRequests_cons_neg k a ms hp]
        rcases ih (k + 1) hms with ⟨ih1, ih2⟩
        refine ⟨?_, ih2⟩
        intro m hm
        rcases List.mem_cons.mp hm with heq | hmem
        · rw [heq]; exact ha
        · exact ih1 m hmem

theorem visitMetaRequests_split (u : List MetaRequest) :
    ∀ (k : Nat) (sl : List MetaRequest),
      (∀ m ∈ u, unservedReady m) → (∀ m ∈ sl, wasServed m) →
      (∀ m ∈ (visitMetaRequests k (u ++ sl)).1, wasServed m) ∧
      ∃ u₂ s₂ : List MetaRequest,
        (visitMetaRequests k (u ++ sl)).2 = u₂ ++ s₂ ∧
        (∀ m ∈ u₂, unservedReady m) ∧ (∀ m ∈ s₂, wasServed m) ∧
        u₂.length = u.length - k := by
  induction u with
  | nil =>
    intro k sl hu hs
    simp only [List.nil_append]
    rcases visitMetaRequests_served sl k hs with ⟨h1, h2⟩
    exact ⟨h1, [], (visitMetaRequests k sl).2, by simp,
      fun m hm => absurd hm (List.not_mem_nil m), h2, by simp⟩
  | cons a u ih =>
    intro k sl hu hs
    have ha : unservedReady a := hu a (List.mem_cons_self a u)
    have hu' : ∀ m ∈ u, unservedReady m := fun m hm => hu m (List.mem_cons_of_mem a hm)
    cases k with
    | zero =>
      refine ⟨fun m hm => absurd hm (List.not_mem_nil m),
        a :: u, sl, rfl, hu, hs, by simp⟩
    | succ k =>
      rw [List.cons_append, visitMetaRequests_cons_pos k a (u ++ sl) ha.1]
      rcases ih k sl hu' hs with ⟨ih1, u₂, s₂, ihsplit, ihu₂, ihs₂, ihlen⟩
      constructor
      · intro m hm
        rcases List.mem_cons.mp hm with heq | hmem
        · rw [heq]
          exact Nat.succ_pos a.served
        · exact ih1 m hmem
      · refine ⟨u₂, s₂, ihsplit, ihu₂, ihs₂, ?_⟩
        rw [ihlen, List.length_cons]
        omega

theorem rrRun_split (k : Nat) (u sl : List MetaRequest)
    (hu : ∀ m ∈ u, unservedReady m) (hs : ∀ m ∈ sl, wasServed m) :
    ∃ u₂ s₃ : List MetaRequest,
      rrRun k (u ++ sl) = u₂ ++ s₃ ∧
      (∀ m ∈ u₂, unservedReady m) ∧ (∀ m ∈ s₃, wasServed m) ∧
      u₂.length = u.length - k := by
  rcases visitMetaRequests_split u k sl hu hs with ⟨h1, u₂, s₂, hsplit, hu₂, hs₂, hlen⟩
  refine ⟨u₂, s₂ ++ (visitMetaRequests k (u ++ sl)).1, ?_, hu₂, ?_, hlen⟩
  · unfold rrRun
    rw [hsplit, List.append_assoc]
  · intro m hm
    rcases List.mem_append.mp hm with h | h
    · exact hs₂ m h
    · exact h1 m h

theorem rrRuns_all_served (n : Nat) :
    ∀ (k : Nat) (u sl : List MetaRequest), 0 < k →
      (∀ m ∈ u, unservedReady m) → (∀ m ∈ sl, wasServed m) →
      u.length ≤ n →
      ∀ m ∈ rrRuns k n (u ++ sl), wasServed m := by
  induction n with
  | zero =>
    intro k u sl hk hu hs hlen m hm
    have hnil : u = [] := List.length_eq_zero.mp (Nat.le_zero.mp hlen)
    subst hnil
    simp only [List.nil_append] at hm
    exact hs m hm
  | succ n ih =>
    intro k u sl hk hu hs hlen m hm
    rcases rrRun_split k u sl hu hs with ⟨u₂, s₃, hsplit, hu₂, hs₃, hlen₂⟩
    have hm' : m ∈ rrRuns k n (u₂ ++ s₃) := by
      rw [← hsplit]
      exact hm
    exact ih k u₂ s₃ hk hu₂ hs₃ (by omega) m hm'

theorem visitMetaRequests_map_id (ms : List MetaRequest) :
    ∀ k : Nat,
      ((visitMetaRequests k ms).1 ++ (visitMetaRequests k ms).2).map MetaRequest.mrId
        = ms.map MetaRequest.mrId := by
  induction ms with
  | nil => intro k; cases k <;> rfl
  | cons m ms ih =>
    intro k
    cases k with
    | zero => rfl
    | succ k =>
      by_cases hp : 0 < m.pending
      · rw [visitMetaRequests_cons_pos k m ms hp]
        simp only [List.cons_append, List.map_cons]
        rw [ih k]
      · rw [visitMetaRequests_cons_neg k m ms hp]
        simp only [List.cons_append, List.map_cons]
        rw [ih (k + 1)]

theorem rrRun_map_id_perm (k : Nat) (ms : List MetaRequest) :
    List.Perm ((rrRun k ms).map MetaRequest.mrId) (ms.map MetaRequest.mrId) := by
  have h := visitMetaRequests_map_id ms k
  unfold rrRun
  rw [List.map_append, ← h, List.map_append]
  exact List.perm_append_comm

theorem rrRuns_map_id_perm (k : Nat) (n : Nat) :
    ∀ ms : List MetaRequest,
      List.Perm ((rrRuns k n ms).map MetaRequest.mrId) (ms.map MetaRequest.mrId) := by
  induction n with
  | zero => intro ms; exact List.Perm.refl _
  | succ n ih =>
    intro ms
    exact List.Perm.trans (ih (rrRun k ms)) (rrRun_map_id_perm k ms)

/-- C5: given `N` meta-requests each with at least one pending request and
never yet serviced, and `0 < k < N` available connection slots, `N` scheduler
runs — each rotating from the saved cursor and advancing it past the last
meta-request visited — give every meta-request service at least once (no
starvation), and the runs only permute the meta-requests (none is lost). -/
theorem round_robin_no_starvation (k : Nat) (metas : List MetaRequest)
    (hk : 0 < k) (_hkn : k < metas.length)
    (hm : ∀ m ∈ metas, 0 < m.pending ∧ m.served = 0) :
    (∀ m ∈ rrRuns k metas.length metas, 0 < m.served)
    ∧ List.Perm ((rrRuns k metas.length metas).map MetaRequest.mrId)
        (metas.map MetaRequest.mrId) := by
  constructor
  · intro m hmem
    have h := rrRuns_all_served metas.length k metas [] hk hm
      (fun x hx => absurd hx (List.not_mem_nil x)) (le_refl _)
    have hmem' : m ∈ rrRuns k metas.length (metas ++ []) := by
      rw [List.append_nil]
      exact hmem
    exact h m hmem'
  · exact rrRuns_map_id_perm k metas.length metas

theorem round_robin_no_starvation_witness :
    (∀ m ∈ rrRuns 1 ([⟨0, 1, 0⟩, ⟨1, 2, 0⟩, ⟨2, 1, 0⟩] : List MetaRequest).length
        [⟨0, 1, 0⟩, ⟨1, 2, 0⟩, ⟨2, 1, 0⟩], 0 < m.served)
    ∧ List.Perm
        ((rrRuns 1 ([⟨0, 1, 0⟩, ⟨1, 2, 0⟩, ⟨2, 1, 0⟩] : List MetaRequest).length
            [⟨0, 1, 0⟩, ⟨1, 2, 0⟩, ⟨2, 1, 0⟩]).map MetaRequest.mrId)
        (([⟨0, 1, 0⟩, ⟨1, 2, 0⟩, ⟨2, 1, 0⟩] : List MetaRequest).map MetaRequest.mrId) :=
  round_robin_no_starvation 1 [⟨0, 1, 0⟩, ⟨1, 2, 0⟩, ⟨2, 1, 0⟩]
    (by decide) (by decide) (by decide)
